import Mathlib

/-!
Shallow embedding of the caching and license-processing logic of the
choosealicense Alfred workflow (JavaScript / JXA sources), together with
theorems settling the specification's testable properties against it.

JS strings are modelled as `List Char`; `text.replace(/lit/g, repl)` (a
global literal replacement — every regex in the source is an escaped
literal) is modelled by the structural scanner `replaceAllGo`.  Machine
time (`NSDate`, `Date.now()/1000`) is a `Nat` parameter.  File contents
are modelled by explicit content types; `null`/`undefined` values become
`Option`.  Fetch functions are modelled by their outcome (`Option` of the
parsed response), since the network is an external collaborator.
-/

/-- JS string contents as a list of characters. -/
abbrev Chars := List Char

/-- The character list of a Lean string literal (used to write JS string
literals from the source). -/
def chars (s : String) : Chars := s.data

/-- Models JS `String.prototype.toLowerCase` (simple per-character
lowering, adequate for the ASCII license names and keys involved). -/
def lowerS (s : String) : String := String.mk (s.data.map Char.toLower)

/-- Substring occurrence test on character lists: `occursIn p t` is true
iff `p` occurs contiguously in `t` (the empty pattern always occurs). -/
def occursIn (p : Chars) : Chars → Bool
  | [] => p.isEmpty
  | c :: rest => p.isPrefixOf (c :: rest) || occursIn p rest

/-- Models JS `s.includes(sub)`. -/
def jsIncludes (s sub : String) : Bool := occursIn sub.data s.data

/-- JS whitespace characters relevant to `String.prototype.trim`. -/
def isJsWhitespace (c : Char) : Bool :=
  c == ' ' || c == '\t' || c == '\n' || c == '\r'

/-- Drops leading JS whitespace. -/
def dropLeadingWs : Chars → Chars
  | [] => []
  | c :: rest => if isJsWhitespace c then dropLeadingWs rest else c :: rest

/-- Models JS `s.trim()`. -/
def jsTrim (s : String) : String :=
  String.mk ((dropLeadingWs (dropLeadingWs s.data.reverse).reverse))

/-- Scanner for global literal replacement.  The `skip` counter consumes
the tail of a pattern occurrence that has already been matched; at
`skip = 0` the scanner tries to match the pattern at the current
position. -/
def replaceAllGo (p r : Chars) : Nat → Chars → Chars
  | _, [] => []
  | 0, c :: rest =>
      if p.isPrefixOf (c :: rest) && !p.isEmpty then
        r ++ replaceAllGo p r (p.length - 1) rest
      else
        c :: replaceAllGo p r 0 rest
  | k + 1, _ :: rest => replaceAllGo p r k rest

/-- Models JS `text.replace(/p/g, r)` for a literal pattern `p`:
replaces every non-overlapping occurrence of `p` in `text` by `r`,
scanning left to right. -/
def replaceAll (p r text : Chars) : Chars := replaceAllGo p r 0 text

/-- Scanner for the counting replacement used by the wtfpl year rule:
occurrences of `p` are counted left to right and only the occurrence at
which the count becomes 2 is replaced by `r`, every other occurrence is
kept. -/
def replaceSecondGo (p r : Chars) : Nat → Nat → Chars → Chars
  | _, _, [] => []
  | cnt, 0, c :: rest =>
      if p.isPrefixOf (c :: rest) && !p.isEmpty then
        (if cnt + 1 == 2 then r else p) ++
          replaceSecondGo p r (cnt + 1) (p.length - 1) rest
      else
        c :: replaceSecondGo p r cnt 0 rest
  | cnt, k + 1, _ :: rest => replaceSecondGo p r cnt k rest

/-- Models `text.replace(/2004/g, (m) => (++count === 2 ? year : m))`
with `count` starting at 0: the second occurrence is replaced. -/
def replaceSecond (p r text : Chars) : Chars := replaceSecondGo p r 0 0 text

/-- A license record as fetched from the GitHub licenses API and stored
in the caches.  `body` is the full license text; the remaining fields
are the metadata the scripts read. -/
structure License where
  key : String
  spdx_id : String
  name : String
  html_url : String
  url : String
  body : Chars
deriving DecidableEq

/-- Persisted content of a per-item cache file (`used-licenses.json`).
`invalidJson` is content on which `JSON.parse` throws; `jsonNonArray` is
valid JSON that is not an array (`Array.isArray` fails). -/
inductive FileContent
  | absent
  | invalidJson
  | jsonNonArray
  | jsonArray (entries : List License)
deriving DecidableEq

/-- `readCache` as it appears identically in `process_license.js` and in
the markdown generator: returns the parsed array, or `null` when the
file is missing/unreadable (`NSData` is nil), `JSON.parse` throws, or
the parsed value is not an array. -/
def readCache : FileContent → Option (List License)
  | .absent => none
  | .invalidJson => none
  | .jsonNonArray => none
  | .jsonArray entries => some entries

/-- `fileManager.fileExistsAtPath` for the modelled cache file. -/
def fileExists : FileContent → Bool
  | .absent => false
  | _ => true

/-- The list of entries an observer obtains from a store (`readCache`
with the `|| []` default applied). -/
def storeList (c : FileContent) : List License := (readCache c).getD []

/-- Result of one `getLicense` invocation: the value returned to the
caller, the array handed to `writeCache` (`none` when no write
happened), and whether the fetch function was invoked. -/
structure GetResult where
  result : Option License
  written : Option (List License)
  fetched : Bool
deriving DecidableEq

namespace ProcessLicense

/-- `CACHE_EXPIRY` of `process_license.js`: one year in seconds. -/
def CACHE_EXPIRY : Nat := 31536000

/-- `isCacheFresh(cacheFile, fileManager)`: false when the file does not
exist or its modification date is unavailable (nil attributes are folded
into `modDate = none`, as is the catch branch), otherwise true iff `now`
is strictly before `modDate + CACHE_EXPIRY`. -/
def isCacheFresh (exists_ : Bool) (modDate : Option Nat) (now : Nat) : Bool :=
  if !exists_ then false
  else
    match modDate with
    | none => false
    | some t => decide (now < t + CACHE_EXPIRY)

/-- The `author || "[fullname]"` fallback of `replaceAuthor`: `none`
models an unset Alfred variable (`undefined`), and the empty string is
also falsy. -/
def authorNameOf (author : Option String) : Chars :=
  match author with
  | none => chars "[fullname]"
  | some a => if a = "" then chars "[fullname]" else chars a

/-- `replaceAuthor(author, key, text)` from `process_license.js`. -/
def replaceAuthor (author : Option String) (key : String) (text : Chars) : Chars :=
  if key == "agpl-3.0" || key == "gpl-2.0" || key == "gpl-3.0" || key == "lgpl-2.1" then
    replaceAll (chars "<name of author>") (authorNameOf author) text
  else if key == "apache-2.0" then
    replaceAll (chars "[name of copyright owner]") (authorNameOf author) text
  else if key == "bsd-2-clause" || key == "bsd-3-clause" || key == "mit" ||
      key == "bsd-4-clause" || key == "isc" then
    replaceAll (chars "[fullname]") (authorNameOf author) text
  else if key == "wtfpl" then
    replaceAll (chars "Sam Hocevar <sam@hocevar.net>") (authorNameOf author) text
  else
    text

/-- The author placeholder token of each recognized license family,
read off the branches of `replaceAuthor` (`none` for keys the switch
passes through). -/
def authorPat (key : String) : Option Chars :=
  if key == "agpl-3.0" || key == "gpl-2.0" || key == "gpl-3.0" || key == "lgpl-2.1" then
    some (chars "<name of author>")
  else if key == "apache-2.0" then
    some (chars "[name of copyright owner]")
  else if key == "bsd-2-clause" || key == "bsd-3-clause" || key == "mit" ||
      key == "bsd-4-clause" || key == "isc" then
    some (chars "[fullname]")
  else if key == "wtfpl" then
    some (chars "Sam Hocevar <sam@hocevar.net>")
  else
    none

/-- `replaceYear(year, key, text)` from `process_license.js`; the wtfpl
branch replaces the second occurrence of `2004`. -/
def replaceYear (year : Chars) (key : String) (text : Chars) : Chars :=
  if key == "agpl-3.0" || key == "gpl-2.0" || key == "gpl-3.0" || key == "lgpl-2.1" then
    replaceAll (chars "<year>") year text
  else if key == "apache-2.0" then
    replaceAll (chars "[yyyy]") year text
  else if key == "bsd-2-clause" || key == "bsd-3-clause" || key == "mit" ||
      key == "bsd-4-clause" || key == "isc" then
    replaceAll (chars "[year]") year text
  else if key == "wtfpl" then
    replaceSecond (chars "2004") year text
  else
    text

/-- The year placeholder token of each recognized license family, read
off the branches of `replaceYear` (for wtfpl the literal `2004`, whose
second occurrence is the replacement target). -/
def yearPat (key : String) : Option Chars :=
  if key == "agpl-3.0" || key == "gpl-2.0" || key == "gpl-3.0" || key == "lgpl-2.1" then
    some (chars "<year>")
  else if key == "apache-2.0" then
    some (chars "[yyyy]")
  else if key == "bsd-2-clause" || key == "bsd-3-clause" || key == "mit" ||
      key == "bsd-4-clause" || key == "isc" then
    some (chars "[year]")
  else if key == "wtfpl" then
    some (chars "2004")
  else
    none

/-- `t` retains no recognized placeholder token of `key`'s family. -/
def noResidual (key : String) (t : Chars) : Bool :=
  (match authorPat key with
   | some p => !occursIn p t
   | none => true) &&
  (match yearPat key with
   | some p => !occursIn p t
   | none => true)

/-- The placeholder-substitution pass of `processLicense`: author
replacement followed by year replacement for the given license key. -/
def substitutePlaceholders (author : Option String) (year : Chars)
    (key : String) (text : Chars) : Chars :=
  replaceYear year key (replaceAuthor author key text)

/-- `processLicense(license, author)`; `currentYear` is the clock value
(`new Date().getFullYear().toString()`) passed explicitly.  A license
with an empty (falsy) body yields the empty string. -/
def processLicense (license : License) (author : Option String)
    (currentYear : Chars) : Chars :=
  if license.body.isEmpty then []
  else substitutePlaceholders author currentYear license.key license.body

/-- `getLicense(licenseKey, cacheFile, fileManager)` from
`process_license.js`, with the `isCacheFresh` outcome passed as `fresh`
and the fetch outcome as `fetchResult` (`none` models a `null` return).
On a fresh-cache hit the entry is returned without fetching; otherwise
the fetch result, when it carries a truthy `key`, replaces any previous
entry for `licenseKey` and the updated array is written. -/
def getLicense (licenseKey : String) (fresh : Bool) (content : FileContent)
    (fetchResult : Option License) : GetResult :=
  let hit : Option License :=
    if fresh then ((readCache content).getD []).find? (fun l => l.key == licenseKey)
    else none
  match hit with
  | some cached => { result := some cached, written := none, fetched := false }
  | none =>
    match fetchResult with
    | none => { result := none, written := none, fetched := true }
    | some license =>
      if license.key ≠ "" then
        let cache := (readCache content).getD []
        let updated := cache.filter (fun l => l.key != licenseKey) ++ [license]
        { result := some license, written := some updated, fetched := true }
      else
        { result := none, written := none, fetched := true }

/-- `getLicense` with the freshness check expanded: `now` is the current
time and `modDate` the cache file's modification time. -/
def getLicenseAt (licenseKey : String) (now : Nat) (modDate : Option Nat)
    (content : FileContent) (fetchResult : Option License) : GetResult :=
  getLicense licenseKey (isCacheFresh (fileExists content) modDate now)
    content fetchResult

/-- Observable output of `run(argv)` in `process_license.js`. -/
inductive RunOut
  | errorNoKey
  | errorFetchFailed (key : String)
  | body (text : Chars)
deriving DecidableEq

/-- `run(argv)` from `process_license.js`: a missing or
whitespace-only argument is rejected; a `null` from `getLicense` becomes
the `Failed to fetch license` error object; otherwise the processed body
is returned. -/
def run (argv0 : Option String) (author : Option String) (currentYear : Chars)
    (now : Nat) (modDate : Option Nat) (content : FileContent)
    (fetchResult : Option License) : RunOut :=
  let licenseKey := match argv0 with | none => "" | some s => jsTrim s
  if licenseKey = "" then .errorNoKey
  else
    match (getLicenseAt licenseKey now modDate content fetchResult).result with
    | none => .errorFetchFailed licenseKey
    | some license => .body (processLicense license author currentYear)

end ProcessLicense

namespace UsedCache

/-- `getLicense(licenseKey, cacheFile)` of the markdown-generator
variant (the `used-licenses.json` cache without any freshness check): a
cached entry is returned directly; otherwise a fetched license with a
truthy key is appended to the array and written. -/
def getLicense (licenseKey : String) (content : FileContent)
    (fetchResult : Option License) : GetResult :=
  let cache := (readCache content).getD []
  match cache.find? (fun l => l.key == licenseKey) with
  | some cached => { result := some cached, written := none, fetched := false }
  | none =>
    match fetchResult with
    | none => { result := none, written := none, fetched := true }
    | some license =>
      if license.key ≠ "" then
        { result := some license, written := some (cache ++ [license]), fetched := true }
      else
        { result := none, written := none, fetched := true }

end UsedCache

namespace CopyList

/-- `CACHE_EXPIRY` of the list cache in `get_license_copy.js`: 24 hours
in seconds. -/
def CACHE_EXPIRY : Nat := 86400

/-- The `LICENSE_CATEGORIES` dictionary of `get_license_copy.js`. -/
def LICENSE_CATEGORIES (k : String) : Option String :=
  if k = "AGPL-3.0" then some "Strongest Copyleft License"
  else if k = "GPL-3.0" then some "Strong Copyleft License"
  else if k = "GPL-2.0" then some "Strong Copyleft License"
  else if k = "LGPL-3.0" then some "Weak Copyleft License"
  else if k = "LGPL-2.1" then some "Weak Copyleft License"
  else if k = "MPL-2.0" then some "Weak Copyleft License"
  else if k = "Apache-2.0" then some "Permissive License"
  else if k = "MIT" then some "Short and Simple Permissive License"
  else if k = "BSD-2-Clause" then some "Simple Permissive License"
  else if k = "BSD-3-Clause" then some "Permissive License"
  else if k = "BSL-1.0" then some "Permissive License"
  else if k = "EPL-2.0" then some "Weak Copyleft License"
  else if k = "CC0-1.0" then some "No Conditions Whatsoever"
  else if k = "Unlicense" then some "No Conditions Whatsoever"
  else none

/-- `categorizeLicense(key, name)` of `get_license_copy.js`: dictionary
lookup first, then keyword-based categorization. -/
def categorizeLicense (key name : String) : String :=
  match LICENSE_CATEGORIES key with
  | some c => c
  | none =>
    let nameLower := lowerS name
    let keyLower := lowerS key
    if jsIncludes keyLower "agpl" || jsIncludes nameLower "affero" then
      "Strongest Copyleft License"
    else if jsIncludes keyLower "gpl" && !jsIncludes keyLower "lgpl" then
      "Strong Copyleft License"
    else if jsIncludes keyLower "lgpl" || jsIncludes nameLower "lesser" then
      "Weak Copyleft License"
    else if jsIncludes keyLower "mpl" || jsIncludes nameLower "mozilla" then
      "Weak Copyleft License"
    else if jsIncludes keyLower "cc0" || jsIncludes keyLower "unlicense" ||
        jsIncludes nameLower "public domain" then
      "No Conditions Whatsoever"
    else if jsIncludes keyLower "mit" || jsIncludes keyLower "bsd" ||
        jsIncludes keyLower "apache" || jsIncludes nameLower "permissive" then
      "Permissive License"
    else
      "Open Source License"

/-- One Alfred item built by `makeItems` of `get_license_copy.js`. -/
structure Item where
  uid : String
  title : String
  subtitle : String
  arg : String
  autocomplete : String
  valid : Bool
  cmdSubtitle : String
  cmdArg : String
deriving DecidableEq

/-- The item constructed for one license by `makeItems` of
`get_license_copy.js` (`license.html_url || license.url` selects the cmd
modifier url). -/
def itemFor (license : License) : Item :=
  { uid := license.key
    title := license.name
    subtitle := categorizeLicense license.key license.name
    arg := license.key
    autocomplete := license.name
    valid := true
    cmdSubtitle := "View " ++ license.name ++ " details on GitHub"
    cmdArg := if license.html_url = "" then license.url else license.html_url }

/-- `makeItems(licenses, query)` of `get_license_copy.js`: an empty
(falsy) query keeps every license, otherwise a license is kept when its
lowercased name or key includes the lowercased query. -/
def makeItems (licenses : List License) (query : String) : List Item :=
  let queryLower := lowerS query
  (licenses.filter (fun license =>
      if query = "" then true
      else jsIncludes (lowerS license.name) queryLower ||
        jsIncludes (lowerS license.key) queryLower)).map itemFor

/-- The value found in the `licenses` field of the parsed list-cache
JSON: either an actual array of license records, or some other JSON
value of which only JS truthiness is relevant (`Array.isArray` fails on
it, and calling `.filter` on it throws). -/
inductive LicVal
  | arr (ls : List License)
  | other (truthy : Bool)
deriving DecidableEq

/-- JS truthiness of a `licenses` field value (an array, even empty, is
truthy). -/
def LicVal.truthy : LicVal → Bool
  | .arr _ => true
  | .other b => b

/-- Persisted content of `licenses_cache.json`: missing/unreadable file,
content on which `JSON.parse` throws (caught, leaving `cache = {}`), or
a parsed value with optional `licenses` and `timestamp` fields (a parsed
non-object also yields two absent fields). -/
inductive ListCache
  | absent
  | invalidJson
  | parsed (licenses : Option LicVal) (timestamp : Option Nat)
deriving DecidableEq

/-- The (`licenses`, `timestamp`) fields visible after the read-and-parse
step of `run` (absent file and caught parse error both leave `{}`). -/
def cacheParts : ListCache → Option LicVal × Option Nat
  | .absent => (none, none)
  | .invalidJson => (none, none)
  | .parsed lv ts => (lv, ts)

/-- The cache-validity test of `run`:
`cache.licenses && cache.timestamp && currentTime - cache.timestamp <
CACHE_EXPIRY` (a zero timestamp is falsy; `Nat` truncated subtraction
agrees with the JS comparison, a negative difference also counting as
fresh). -/
def listFresh (lv : Option LicVal) (ts : Option Nat) (now : Nat) : Bool :=
  match lv, ts with
  | some v, some t => v.truthy && decide (0 < t) && decide (now - t < CACHE_EXPIRY)
  | _, _ => false

/-- Observable JSON output of `run` in `get_license_copy.js`. -/
inductive Outcome
  | items (xs : List Item)
  | errorItem
  | noResults (q : String)
deriving DecidableEq

/-- The output of `run` for a resolved array of licenses: an item list,
or the `No licenses found` placeholder when filtering left nothing. -/
def listOutcome (ls : List License) (q : String) : Outcome :=
  if (makeItems ls q).isEmpty then .noResults q else .items (makeItems ls q)

/-- Result of one `run(argv)` invocation of the list cache:
`Except.error ()` models an uncaught exception escaping `run`;
`written` is the content handed to `writeTextFile` (`none` if no write
happened); `fetched` records whether `fetchLicenses` was invoked. -/
structure RunResult where
  outcome : Except Unit Outcome
  fetched : Bool
  written : Option ListCache

/-- `run(argv)` of the list cache in `get_license_copy.js`.  `query` is
the already-trimmed argument, `now` the current Unix time, `cache` the
persisted store, and `fetchResult` the `fetchLicenses()` outcome
(`none` covers both a `null` return and a parsed non-array, which the
code rejects together).  On a fresh cache the stored `licenses` value is
used directly — if it is truthy but not an array, `makeItems` throws.
On fetch failure a stored array is used stale; otherwise the error item
is produced.  On fetch success the new envelope is written. -/
def run (query : String) (now : Nat) (cache : ListCache)
    (fetchResult : Option (List License)) : RunResult :=
  let lv := (cacheParts cache).1
  let ts := (cacheParts cache).2
  if listFresh lv ts now then
    match lv with
    | some (.arr ls) =>
        { outcome := .ok (listOutcome ls query), fetched := false, written := none }
    | _ => { outcome := .error (), fetched := false, written := none }
  else
    match fetchResult with
    | none =>
      match lv with
      | some (.arr ls) =>
          { outcome := .ok (listOutcome ls query), fetched := true, written := none }
      | _ => { outcome := .ok .errorItem, fetched := true, written := none }
    | some freshLicenses =>
        { outcome := .ok (listOutcome freshLicenses query), fetched := true,
          written := some (.parsed (some (.arr freshLicenses)) (some now)) }

end CopyList

namespace ListLicenses

/-- `categorizeLicense(key, name)` of `list-licenses.js` (the purely
keyword-based variant, which also recognizes `epl` and `bsl`). -/
def categorizeLicense (key name : String) : String :=
  let nameLower := lowerS name
  let keyLower := lowerS key
  if jsIncludes keyLower "agpl" || jsIncludes nameLower "affero" then
    "Strongest Copyleft License"
  else if jsIncludes keyLower "gpl" && !jsIncludes keyLower "lgpl" then
    "Strong Copyleft License"
  else if jsIncludes keyLower "lgpl" || jsIncludes keyLower "mpl" ||
      jsIncludes keyLower "epl" || jsIncludes nameLower "lesser" ||
      jsIncludes nameLower "mozilla" then
    "Weak Copyleft License"
  else if jsIncludes keyLower "cc0" || jsIncludes keyLower "unlicense" ||
      jsIncludes nameLower "public domain" then
    "No Conditions Whatsoever"
  else if jsIncludes keyLower "mit" || jsIncludes keyLower "bsd" ||
      jsIncludes keyLower "apache" || jsIncludes keyLower "bsl" ||
      jsIncludes nameLower "permissive" then
    "Permissive License"
  else
    "Open Source License"

/-- One Alfred item built by `makeItems` of `list-licenses.js`. -/
structure Item where
  uid : String
  title : String
  subtitle : String
  arg : String
  autocomplete : String
  valid : Bool
  quicklookurl : String
  cmdSubtitle : String
  cmdArg : String
  altSubtitle : String
  altArg : String
deriving DecidableEq

/-- The item constructed for one license by `makeItems` of
`list-licenses.js`. -/
def itemFor (license : License) : Item :=
  { uid := license.key
    title := license.name
    subtitle := categorizeLicense license.key license.name
    arg := license.key
    autocomplete := license.name
    valid := true
    quicklookurl := "https://choosealicense.com/licenses/" ++ license.key ++ "/"
    cmdSubtitle := "Paste " ++ license.spdx_id ++ " on frontmost app"
    cmdArg := license.key
    altSubtitle := "View " ++ license.spdx_id ++ " on View Text"
    altArg := license.key }

/-- `makeItems(licenses, query)` of `list-licenses.js`: an empty (falsy)
lowercased query keeps every license, otherwise a license is kept when
its lowercased name or key includes the lowercased query. -/
def makeItems (licenses : List License) (query : String) : List Item :=
  let queryLower := lowerS query
  (licenses.filter (fun license =>
      if queryLower = "" then true
      else jsIncludes (lowerS license.name) queryLower ||
        jsIncludes (lowerS license.key) queryLower)).map itemFor

/-- The query normalization of `run`: `argv[0]?.trim() || ""`. -/
def queryOf (argv0 : Option String) : String :=
  match argv0 with
  | none => ""
  | some s => jsTrim s

end ListLicenses

namespace CopyEntry

/-- The character class `[a-zA-Z0-9\-\.+]` of `isSpdxId`. -/
def isSpdxChar (c : Char) : Bool :=
  ('a' ≤ c && c ≤ 'z') || ('A' ≤ c && c ≤ 'Z') || ('0' ≤ c && c ≤ '9') ||
    c == '-' || c == '.' || c == '+'

/-- `isSpdxId(input)` of `get_license_copy.js`: length below 50, no
newline, and the whole (necessarily nonempty, from the `+` quantifier)
string matches the character class. -/
def isSpdxId (input : Chars) : Bool :=
  decide (input.length < 50) && !(input.contains '\n') &&
    (!input.isEmpty && input.all isSpdxChar)

/-- How `run` of the copy entry point treats its input. -/
inductive CopyAction
  | inputError
  | lookupId
  | extractText
deriving DecidableEq

/-- The input dispatch of `run` in `get_license_copy.js` (lines
120–137): empty input is rejected, an SPDX-looking input is looked up in
the local license data, anything else goes through body extraction. -/
def dispatch (input : Chars) : CopyAction :=
  if input.isEmpty then .inputError
  else if isSpdxId input then .lookupId
  else .extractText

end CopyEntry

/-- The store invariant of the specification: no two entries of a
persisted array share the same key. -/
def distinctKeys (s : List License) : Prop := s.Pairwise (fun a b => a.key ≠ b.key)

/-- The specification's notion of case-insensitive containment: `s`
contains `q` after lowering both. -/
def ciContains (s q : String) : Bool := jsIncludes (lowerS s) (lowerS q)

/-- A concrete MIT license record used by witnesses and counterexamples. -/
def mitLicense : License :=
  { key := "mit"
    spdx_id := "MIT"
    name := "MIT License"
    html_url := "https://choosealicense.com/licenses/mit/"
    url := "https://api.github.com/licenses/mit"
    body := chars "Copyright (c) [year] [fullname]" }

/-- A concrete Apache-2.0 license record used by witnesses. -/
def apacheLicense : License :=
  { key := "apache-2.0"
    spdx_id := "Apache-2.0"
    name := "Apache License 2.0"
    html_url := "https://choosealicense.com/licenses/apache-2.0/"
    url := "https://api.github.com/licenses/apache-2.0"
    body := chars "Copyright [yyyy] [name of copyright owner]" }

/-- A parsed fetch response carrying no `key` field (as the GitHub 404
body does): its falsy key makes `license && license.key` fail. -/
def keylessResponse : License :=
  { key := ""
    spdx_id := ""
    name := ""
    html_url := ""
    url := ""
    body := chars "Not Found" }

theorem replaceAllGo_id (p r : Chars) :
    ∀ t : Chars, occursIn p t = false → replaceAllGo p r 0 t = t := by
  intro t
  induction t with
  | nil => intro _; rfl
  | cons c rest ih =>
    intro h
    simp only [occursIn, Bool.or_eq_false_iff] at h
    simp [replaceAllGo, h.1, ih h.2]

theorem replaceSecondGo_id (p r : Chars) :
    ∀ (t : Chars) (cnt : Nat), occursIn p t = false → replaceSecondGo p r cnt 0 t = t := by
  intro t
  induction t with
  | nil => intro _ _; rfl
  | cons c rest ih =>
    intro cnt h
    simp only [occursIn, Bool.or_eq_false_iff] at h
    simp [replaceSecondGo, h.1, ih cnt h.2]

namespace ProcessLicense

theorem replaceAuthor_fix (a : Option String) (key : String) (t : Chars)
    (h : ∀ p, authorPat key = some p → occursIn p t = false) :
    replaceAuthor a key t = t := by
  by_cases h1 : (key == "agpl-3.0" || key == "gpl-2.0" || key == "gpl-3.0" ||
      key == "lgpl-2.1") = true
  · simp only [replaceAuthor, h1, if_true]
    exact replaceAllGo_id _ _ _ (h _ (by simp only [authorPat, h1, if_true]))
  · rw [Bool.not_eq_true] at h1
    by_cases h2 : (key == "apache-2.0") = true
    · simp only [replaceAuthor, h1, h2, Bool.false_eq_true, if_false, if_true]
      exact replaceAllGo_id _ _ _
        (h _ (by simp only [authorPat, h1, h2, Bool.false_eq_true, if_false, if_true]))
    · rw [Bool.not_eq_true] at h2
      by_cases h3 : (key == "bsd-2-clause" || key == "bsd-3-clause" || key == "mit" ||
          key == "bsd-4-clause" || key == "isc") = true
      · simp only [replaceAuthor, h1, h2, h3, Bool.false_eq_true, if_false, if_true]
        exact replaceAllGo_id _ _ _
          (h _ (by simp only [authorPat, h1, h2, h3, Bool.false_eq_true, if_false, if_true]))
      · rw [Bool.not_eq_true] at h3
        by_cases h4 : (key == "wtfpl") = true
        · simp only [replaceAuthor, h1, h2, h3, h4, Bool.false_eq_true, if_false, if_true]
          exact replaceAllGo_id _ _ _
            (h _ (by simp only [authorPat, h1, h2, h3, h4, Bool.false_eq_true, if_false, if_true]))
        · rw [Bool.not_eq_true] at h4
          simp [replaceAuthor, h1, h2, h3, h4]

theorem replaceYear_fix (y : Chars) (key : String) (t : Chars)
    (h : ∀ p, yearPat key = some p → occursIn p t = false) :
    replaceYear y key t = t := by
  by_cases h1 : (key == "agpl-3.0" || key == "gpl-2.0" || key == "gpl-3.0" ||
      key == "lgpl-2.1") = true
  · simp only [replaceYear, h1, if_true]
    exact replaceAllGo_id _ _ _ (h _ (by simp only [yearPat, h1, if_true]))
  · rw [Bool.not_eq_true] at h1
    by_cases h2 : (key == "apache-2.0") = true
    · simp only [replaceYear, h1, h2, Bool.false_eq_true, if_false, if_true]
      exact replaceAllGo_id _ _ _
        (h _ (by simp only [yearPat, h1, h2, Bool.false_eq_true, if_false, if_true]))
    · rw [Bool.not_eq_true] at h2
      by_cases h3 : (key == "bsd-2-clause" || key == "bsd-3-clause" || key == "mit" ||
          key == "bsd-4-clause" || key == "isc") = true
      · simp only [replaceYear, h1, h2, h3, Bool.false_eq_true, if_false, if_true]
        exact replaceAllGo_id _ _ _
          (h _ (by simp only [yearPat, h1, h2, h3, Bool.false_eq_true, if_false, if_true]))
      · rw [Bool.not_eq_true] at h3
        by_cases h4 : (key == "wtfpl") = true
        · simp only [replaceYear, h1, h2, h3, h4, Bool.false_eq_true, if_false, if_true]
          exact replaceSecondGo_id _ _ _ _
            (h _ (by simp only [yearPat, h1, h2, h3, h4, Bool.false_eq_true, if_false, if_true]))
        · rw [Bool.not_eq_true] at h4
          simp [replaceYear, h1, h2, h3, h4]

theorem substitutePlaceholders_fix (a : Option String) (y : Chars) (key : String) (t : Chars)
    (h : noResidual key t = true) :
    substitutePlaceholders a y key t = t := by
  unfold noResidual at h
  rw [Bool.and_eq_true] at h
  have ha : ∀ p, authorPat key = some p → occursIn p t = false := by
    intro p hp
    have := h.1
    rw [hp] at this
    simpa using this
  have hy : ∀ p, yearPat key = some p → occursIn p t = false := by
    intro p hp
    have := h.2
    rw [hp] at this
    simpa using this
  unfold substitutePlaceholders
  rw [replaceAuthor_fix a key t ha, replaceYear_fix y key t hy]

end ProcessLicense

theorem find?_filter_ne (kA kB : String) (A : License) :
    ∀ s : List License, s.find? (fun l => l.key == kA) = some A → kA ≠ kB →
      (s.filter (fun l => l.key != kB)).find? (fun l => l.key == kA) = some A := by
  intro s
  induction s with
  | nil => intro h _; simp [List.find?] at h
  | cons x rest ih =>
    intro h hne
    by_cases hx : (x.key == kA) = true
    · have hA : x = A := by
        simp only [List.find?_cons, hx] at h
        exact Option.some.inj h
      rw [← hA]
      have hxk : x.key = kA := by simpa using hx
      simp [List.filter_cons, List.find?_cons, hx, hxk, hne]
    · rw [Bool.not_eq_true] at hx
      have h' : List.find? (fun l => l.key == kA) rest = some A := by
        simpa [List.find?_cons, hx] using h
      by_cases hf : x.key = kB
      · simp [List.filter_cons, hf, ih h' hne]
      · simp [List.filter_cons, hf, List.find?_cons, hx, ih h' hne]

/-- Claim C5 counterexample: substitution is not idempotent for every
author input.  With license key `mit`, body `[fullname]` and author
`x[fullname]`, the first pass yields `x[fullname]` and a second pass
with the same author and year yields `xx[fullname]`, a different text. -/
theorem substitutionIdempotenceCex :
    ProcessLicense.substitutePlaceholders (some "x[fullname]") (chars "2024") "mit"
        (ProcessLicense.substitutePlaceholders (some "x[fullname]") (chars "2024") "mit"
          (chars "[fullname]"))
      ≠ ProcessLicense.substitutePlaceholders (some "x[fullname]") (chars "2024") "mit"
          (chars "[fullname]") := by decide

/-- Claim C5 (amended): whenever the output of one substitution pass
retains no recognized placeholder token of the license family (which
holds for ordinary author and year values that do not themselves embed
a token), a second pass with the same author and year is the
identity. -/
theorem substitutionIdempotence (author : Option String) (year : Chars)
    (key : String) (t : Chars)
    (h : ProcessLicense.noResidual key
        (ProcessLicense.substitutePlaceholders author year key t) = true) :
    ProcessLicense.substitutePlaceholders author year key
        (ProcessLicense.substitutePlaceholders author year key t)
      = ProcessLicense.substitutePlaceholders author year key t :=
  ProcessLicense.substitutePlaceholders_fix author year key _ h

/-- Witness for C5's amended theorem at the scenario inputs: MIT body,
author `Jane Doe`, year `2024`. -/
theorem substitutionIdempotenceWitness :
    ProcessLicense.noResidual "mit"
        (ProcessLicense.substitutePlaceholders (some "Jane Doe") (chars "2024") "mit"
          (chars "Copyright (c) [year] [fullname]")) = true
    ∧ ProcessLicense.substitutePlaceholders (some "Jane Doe") (chars "2024") "mit"
        (ProcessLicense.substitutePlaceholders (some "Jane Doe") (chars "2024") "mit"
          (chars "Copyright (c) [year] [fullname]"))
      = ProcessLicense.substitutePlaceholders (some "Jane Doe") (chars "2024") "mit"
          (chars "Copyright (c) [year] [fullname]") :=
  ⟨by decide, substitutionIdempotence (some "Jane Doe") (chars "2024") "mit"
      (chars "Copyright (c) [year] [fullname]") (by decide)⟩

/-- Claim C6: for a license key outside the recognized placeholder
families, substitution returns the body completely unmodified, for all
author and year inputs. -/
theorem unrecognizedPassThrough (author : Option String) (year : Chars)
    (key : String) (t : Chars)
    (h : key ∉ (["agpl-3.0", "gpl-2.0", "gpl-3.0", "lgpl-2.1", "apache-2.0",
        "bsd-2-clause", "bsd-3-clause", "mit", "bsd-4-clause", "isc",
        "wtfpl"] : List String)) :
    ProcessLicense.substitutePlaceholders author year key t = t := by
  simp only [List.mem_cons, List.not_mem_nil, or_false, not_or] at h
  obtain ⟨h1, h2, h3, h4, h5, h6, h7, h8, h9, h10, h11⟩ := h
  apply ProcessLicense.substitutePlaceholders_fix
  simp [ProcessLicense.noResidual, ProcessLicense.authorPat, ProcessLicense.yearPat,
    h1, h2, h3, h4, h5, h6, h7, h8, h9, h10, h11]

/-- Witness for C6 at key `mpl-2.0`. -/
theorem unrecognizedPassThroughWitness :
    ("mpl-2.0" : String) ∉ (["agpl-3.0", "gpl-2.0", "gpl-3.0", "lgpl-2.1", "apache-2.0",
        "bsd-2-clause", "bsd-3-clause", "mit", "bsd-4-clause", "isc",
        "wtfpl"] : List String)
    ∧ ProcessLicense.substitutePlaceholders (some "Jane Doe") (chars "2026") "mpl-2.0"
        (chars "body with [fullname] and [year] and <year>")
      = chars "body with [fullname] and [year] and <year>" :=
  ⟨by decide, unrecognizedPassThrough (some "Jane Doe") (chars "2026") "mpl-2.0"
      (chars "body with [fullname] and [year] and <year>") (by decide)⟩

/-- Claim C9: a nonempty input to the copy entry point is treated as an
SPDX identifier (local lookup) exactly when it is shorter than 50
characters, contains no newline, and consists only of characters in
`[a-zA-Z0-9.+-]`; otherwise it goes through body extraction. -/
theorem spdxDetection (input : Chars) (h : input ≠ []) :
    CopyEntry.dispatch input =
      (if decide (input.length < 50) && !(input.contains '\n') &&
          input.all CopyEntry.isSpdxChar
       then CopyEntry.CopyAction.lookupId
       else CopyEntry.CopyAction.extractText) := by
  have he : input.isEmpty = false := by
    cases input with
    | nil => exact absurd rfl h
    | cons c rest => rfl
  simp [CopyEntry.dispatch, CopyEntry.isSpdxId, he]

/-- Witness for C9 at input `mit`. -/
theorem spdxDetectionWitness :
    chars "mit" ≠ [] ∧ CopyEntry.dispatch (chars "mit") = CopyEntry.CopyAction.lookupId :=
  ⟨by decide, (spdxDetection (chars "mit") (by decide)).trans (by decide)⟩

theorem lowerS_eq_empty (s : String) : lowerS s = "" ↔ s = "" := by
  constructor
  · intro h
    rw [lowerS] at h
    have hm : s.data.map Char.toLower = [] := by
      have := congrArg String.data h
      simpa using this
    rw [String.ext_iff]
    simpa using List.map_eq_nil_iff.mp hm
  · intro h
    subst h
    rfl

theorem getLicense_fetchFail_eq (k : String) (fresh : Bool) (content : FileContent)
    (l404 : License) (h : l404.key = "") :
    ProcessLicense.getLicense k fresh content (some l404)
      = ProcessLicense.getLicense k fresh content none := by
  unfold ProcessLicense.getLicense
  cases hh : (if fresh then ((readCache content).getD []).find? (fun l => l.key == k)
      else none) with
  | some cached => rfl
  | none => simp [h]

/-- Claim C1 counterexample: with a cache file last modified at time 0
that contains the entry for `mit`, a lookup one second past the
one-year expiry whose fetch fails returns `null` (the error path) even
though a stale entry for the key exists in the store. -/
theorem staleFallbackCex :
    (ProcessLicense.getLicenseAt "mit" (ProcessLicense.CACHE_EXPIRY + 1) (some 0)
        (.jsonArray [mitLicense]) none).result = none
    ∧ (storeList (.jsonArray [mitLicense])).find? (fun l => l.key == "mit")
        = some mitLicense := by
  exact ⟨rfl, by decide⟩

/-- Claim C1 (amended): stale fallback holds for the list cache (a
stored array is served whenever fetch fails, whatever the timestamp)
and for the TTL-less used-licenses cache (a failed fetch surfaces
exactly the cached entry for the key, however old, and an error only
when no entry exists); the TTL'd per-item cache of `process_license.js`
does not fall back — when its cache is not fresh and fetch fails it
returns the error regardless of the store content. -/
theorem staleFallback :
    (∀ (q : String) (now : Nat) (ls : List License) (ts : Option Nat),
      (CopyList.run q now (.parsed (some (.arr ls)) ts) none).outcome
        = .ok (CopyList.listOutcome ls q))
    ∧ (∀ (k : String) (content : FileContent),
      (UsedCache.getLicense k content none).result
        = (storeList content).find? (fun l => l.key == k))
    ∧ (∀ (k : String) (content : FileContent),
      (ProcessLicense.getLicense k false content none).result = none) := by
  refine ⟨fun q now ls ts => ?_, fun k content => ?_, fun k content => ?_⟩
  · unfold CopyList.run
    by_cases hf : CopyList.listFresh (some (.arr ls)) ts now = true
    · simp [CopyList.cacheParts, hf]
    · rw [Bool.not_eq_true] at hf
      simp [CopyList.cacheParts, hf]
  · unfold UsedCache.getLicense storeList
    cases hf : ((readCache content).getD []).find? (fun l => l.key == k) <;> simp [hf]
  · rfl

/-- Claim C2 counterexample: the used-licenses cache consults no clock
at all — a cached entry written arbitrarily long ago (in particular,
longer than any ttl `D` before the lookup) is returned without ever
invoking the fetch function, contradicting that a get past the expiry
invokes fetch. -/
theorem freshnessCex :
    (UsedCache.getLicense "mit" (.jsonArray [mitLicense]) none).fetched = false
    ∧ (UsedCache.getLicense "mit" (.jsonArray [mitLicense]) none).result = some mitLicense :=
  ⟨rfl, rfl⟩

/-- Claim C2 (amended): for the two TTL'd caches the freshness property
holds — the per-item cache (file modified at `T`, ttl one year) serves
a contained entry without fetching while `now < T + ttl` and invokes
fetch once `now ≥ T + ttl`; the list cache (stored timestamp `T`, ttl
one day) behaves likewise.  The used-licenses cache of the markdown
generator has no ttl and never refetches a cached entry. -/
theorem cacheFreshness (k q : String) (T now : Nat) (ls : List License) (A : License)
    (fr : Option License) (frL : Option (List License)) :
    (now < T + ProcessLicense.CACHE_EXPIRY →
      ls.find? (fun l => l.key == k) = some A →
      ProcessLicense.getLicenseAt k now (some T) (.jsonArray ls) fr
        = { result := some A, written := none, fetched := false })
    ∧ (T + ProcessLicense.CACHE_EXPIRY ≤ now →
      (ProcessLicense.getLicenseAt k now (some T) (.jsonArray ls) fr).fetched = true)
    ∧ (0 < T → now - T < CopyList.CACHE_EXPIRY →
      (CopyList.run q now (.parsed (some (.arr ls)) (some T)) frL).fetched = false
      ∧ (CopyList.run q now (.parsed (some (.arr ls)) (some T)) frL).outcome
          = .ok (CopyList.listOutcome ls q))
    ∧ (CopyList.CACHE_EXPIRY ≤ now - T →
      (CopyList.run q now (.parsed (some (.arr ls)) (some T)) frL).fetched = true) := by
  refine ⟨fun h1 h2 => ?_, fun h => ?_, fun hT hfr => ?_, fun h => ?_⟩
  · simp [ProcessLicense.getLicenseAt, ProcessLicense.getLicense, ProcessLicense.isCacheFresh,
      fileExists, readCache, h1, h2]
  · have hlt : ¬(now < T + ProcessLicense.CACHE_EXPIRY) := Nat.not_lt.mpr h
    simp only [ProcessLicense.getLicenseAt, ProcessLicense.getLicense,
      ProcessLicense.isCacheFresh, fileExists]
    cases fr with
    | none => simp [hlt]
    | some l =>
      by_cases hk : l.key = ""
      · simp [hlt, hk]
      · simp [hlt, hk]
  · have hfresh : CopyList.listFresh (some (.arr ls)) (some T) now = true := by
      simp [CopyList.listFresh, CopyList.LicVal.truthy, hT, hfr]
    constructor
    · simp [CopyList.run, CopyList.cacheParts, hfresh]
    · simp [CopyList.run, CopyList.cacheParts, hfresh]
  · have hfresh : CopyList.listFresh (some (.arr ls)) (some T) now = false := by
      simp [CopyList.listFresh, CopyList.LicVal.truthy, Nat.not_lt.mpr h]
    cases frL with
    | none => simp [CopyList.run, CopyList.cacheParts, hfresh]
    | some f => simp [CopyList.run, CopyList.cacheParts, hfresh]

/-- Witness for C2's amended theorem: an entry written at time 50 is
served without fetch at time 100 and refetched once the respective ttl
has elapsed, in both TTL'd caches. -/
theorem cacheFreshnessWitness :
    ProcessLicense.getLicenseAt "mit" 100 (some 50) (.jsonArray [mitLicense]) none
      = { result := some mitLicense, written := none, fetched := false }
    ∧ (ProcessLicense.getLicenseAt "mit" (50 + ProcessLicense.CACHE_EXPIRY) (some 50)
        (.jsonArray [mitLicense]) none).fetched = true
    ∧ (CopyList.run "" 100 (.parsed (some (.arr [mitLicense])) (some 50)) none).fetched = false
    ∧ (CopyList.run "" (50 + CopyList.CACHE_EXPIRY)
        (.parsed (some (.arr [mitLicense])) (some 50)) none).fetched = true :=
  ⟨(cacheFreshness "mit" "" 50 100 [mitLicense] mitLicense none none).1 (by decide) (by decide),
   (cacheFreshness "mit" "" 50 (50 + ProcessLicense.CACHE_EXPIRY) [mitLicense] mitLicense
      none none).2.1 (by decide),
   ((cacheFreshness "mit" "" 50 100 [mitLicense] mitLicense none none).2.2.1
      (by decide) (by decide)).1,
   (cacheFreshness "mit" "" 50 (50 + CopyList.CACHE_EXPIRY) [mitLicense] mitLicense
      none none).2.2.2 (by decide)⟩

/-- Claim C3 counterexample: a list-cache store whose `licenses` field
is truthy but not an array, paired with a fresh timestamp, makes the
list `run` throw (the `.filter` call on a non-array) — unlike the
absent-store case, which quietly refetches and, failing that, yields
the error item. -/
theorem corruptStoreCex :
    (CopyList.run "" 1000 (.parsed (some (.other true)) (some 999)) none).outcome
      = Except.error ()
    ∧ (CopyList.run "" 1000 .absent none).outcome = .ok .errorItem :=
  ⟨rfl, rfl⟩

/-- Claim C3 (amended): for the per-item caches, a store whose content
is invalid JSON, or valid JSON that is not an array, behaves exactly
like an absent store (same result, same write, same fetch); for the
list cache, content on which `JSON.parse` throws behaves exactly like
an absent store.  A parsed list-cache store with a truthy non-array
`licenses` field and a fresh timestamp, however, raises a type error
(see the counterexample). -/
theorem corruptStoreResilience :
    (∀ (k : String) (now : Nat) (md : Option Nat) (fr : Option License),
      ProcessLicense.getLicenseAt k now md .invalidJson fr
        = ProcessLicense.getLicenseAt k now md .absent fr)
    ∧ (∀ (k : String) (now : Nat) (md : Option Nat) (fr : Option License),
      ProcessLicense.getLicenseAt k now md .jsonNonArray fr
        = ProcessLicense.getLicenseAt k now md .absent fr)
    ∧ (∀ (q : String) (now : Nat) (frL : Option (List License)),
      CopyList.run q now .invalidJson frL = CopyList.run q now .absent frL) := by
  refine ⟨fun k now md fr => ?_, fun k now md fr => ?_, fun q now frL => rfl⟩
  · simp [ProcessLicense.getLicenseAt, ProcessLicense.getLicense, readCache, fileExists,
      ProcessLicense.isCacheFresh, List.find?]
  · simp [ProcessLicense.getLicenseAt, ProcessLicense.getLicense, readCache, fileExists,
      ProcessLicense.isCacheFresh, List.find?]

/-- Claim C4: after a miss on `B.key` that fetches `B` successfully,
the persisted array keeps every differently-keyed entry: an entry `A`
findable under `kA ≠ B.key` before the write is still present,
unchanged, and findable under `kA` in the written store. -/
theorem partialOverwrite (s : List License) (A B : License) (kA : String) (fresh : Bool)
    (hA : s.find? (fun l => l.key == kA) = some A)
    (hne : kA ≠ B.key) (hkB : B.key ≠ "")
    (hmiss : s.find? (fun l => l.key == B.key) = none) :
    (ProcessLicense.getLicense B.key fresh (.jsonArray s) (some B)).written
      = some (s.filter (fun l => l.key != B.key) ++ [B])
    ∧ A ∈ s.filter (fun l => l.key != B.key) ++ [B]
    ∧ (s.filter (fun l => l.key != B.key) ++ [B]).find? (fun l => l.key == kA) = some A := by
  have hfind := find?_filter_ne kA B.key A s hA hne
  refine ⟨?_, ?_, ?_⟩
  · simp [ProcessLicense.getLicense, readCache, hmiss, hkB]
  · exact List.mem_append_left _ (List.mem_of_find?_eq_some hfind)
  · rw [List.find?_append, hfind]
    rfl

/-- Witness for C4: fetching `apache-2.0` into a store holding the MIT
entry keeps the MIT entry retrievable and unchanged. -/
theorem partialOverwriteWitness :
    (ProcessLicense.getLicense "apache-2.0" false (.jsonArray [mitLicense])
        (some apacheLicense)).written
      = some ([mitLicense].filter (fun l => l.key != "apache-2.0") ++ [apacheLicense])
    ∧ mitLicense ∈ [mitLicense].filter (fun l => l.key != "apache-2.0") ++ [apacheLicense]
    ∧ ([mitLicense].filter (fun l => l.key != "apache-2.0")
        ++ [apacheLicense]).find? (fun l => l.key == "mit") = some mitLicense :=
  partialOverwrite [mitLicense] mitLicense apacheLicense "mit" false
    (by decide) (by decide) (by decide) (by decide)

/-- Claim C7 counterexample: for the key `mit` with an empty store, a
transport failure (`null` fetch) and an upstream not-found response (a
parsed body with no `key` field) produce the identical output — the
same `Failed to fetch license: mit` error object — so the two cases
are not distinguishable by the caller. -/
theorem notFoundCex :
    ProcessLicense.run (some "mit") none (chars "2026") 0 none .absent none
      = ProcessLicense.run (some "mit") none (chars "2026") 0 none .absent
          (some keylessResponse)
    ∧ ProcessLicense.run (some "mit") none (chars "2026") 0 none .absent none
      = .errorFetchFailed "mit" :=
  ⟨rfl, rfl⟩

/-- Claim C7 (amended): in the per-item `run` of `process_license.js`,
an unknown key (upstream response without a truthy `key` field) and a
transport failure always produce the same output, and whenever no
cached entry rescues the call that common output is the single
`Failed to fetch license` error — the two failure classes are not
distinguishable there. -/
theorem notFoundIndistinguishable (argv0 author : Option String) (year : Chars)
    (now : Nat) (md : Option Nat) (content : FileContent) (l404 : License)
    (h : l404.key = "") :
    ProcessLicense.run argv0 author year now md content none
      = ProcessLicense.run argv0 author year now md content (some l404)
    ∧ ∀ k : String, jsTrim k ≠ "" →
      ProcessLicense.run (some k) author year now md .absent none
        = .errorFetchFailed (jsTrim k) := by
  constructor
  · unfold ProcessLicense.run ProcessLicense.getLicenseAt
    simp only [getLicense_fetchFail_eq _ _ _ _ h]
  · intro k hk
    simp [ProcessLicense.run, ProcessLicense.getLicenseAt, ProcessLicense.getLicense,
      ProcessLicense.isCacheFresh, fileExists, hk]

/-- Witness for C7's amended theorem at key `nope`. -/
theorem notFoundIndistinguishableWitness :
    ProcessLicense.run (some "nope") none (chars "2026") 5 (some 1) (.jsonArray [mitLicense]) none
      = ProcessLicense.run (some "nope") none (chars "2026") 5 (some 1) (.jsonArray [mitLicense])
          (some keylessResponse)
    ∧ ProcessLicense.run (some "nope") none (chars "2026") 5 (some 1) .absent none
      = .errorFetchFailed (jsTrim "nope") :=
  ⟨(notFoundIndistinguishable (some "nope") none (chars "2026") 5 (some 1)
      (.jsonArray [mitLicense]) keylessResponse rfl).1,
   (notFoundIndistinguishable (some "nope") none (chars "2026") 5 (some 1)
      .absent keylessResponse rfl).2 "nope" (by decide)⟩

/-- Claim C8: starting from a store with pairwise-distinct keys, any
write performed by a cache operation — the filter-then-push update of
`process_license.js` or the miss-then-push update of the used-licenses
cache — again has pairwise-distinct keys, for any fetch outcome whose
returned entry carries the requested key. -/
theorem keyUniqueness (s : List License) (k : String) (fresh : Bool) (fr : Option License)
    (hs : distinctKeys s) (hfr : ∀ l, fr = some l → l.key = k) :
    (∀ w, (ProcessLicense.getLicense k fresh (.jsonArray s) fr).written = some w →
      distinctKeys w)
    ∧ (∀ w, (UsedCache.getLicense k (.jsonArray s) fr).written = some w →
      distinctKeys w) := by
  constructor
  · intro w hw
    simp only [ProcessLicense.getLicense, readCache, Option.getD_some] at hw
    cases hh : (if fresh then s.find? (fun l => l.key == k) else none) with
    | some cached => rw [hh] at hw; simp at hw
    | none =>
      rw [hh] at hw
      cases fr with
      | none => simp at hw
      | some l =>
        by_cases hk : l.key = ""
        · simp [hk] at hw
        · simp [hk] at hw
          rw [← hw]
          unfold distinctKeys
          rw [List.pairwise_append]
          refine ⟨List.Pairwise.sublist (List.filter_sublist s) hs,
            List.pairwise_singleton _ _, ?_⟩
          intro a ha b hb
          rw [List.mem_singleton] at hb
          rw [hb, hfr l rfl]
          have := List.of_mem_filter ha
          simpa using this
  · intro w hw
    simp only [UsedCache.getLicense, readCache, Option.getD_some] at hw
    cases hh : s.find? (fun l => l.key == k) with
    | some cached => rw [hh] at hw; simp at hw
    | none =>
      rw [hh] at hw
      cases fr with
      | none => simp at hw
      | some l =>
        by_cases hk : l.key = ""
        · simp [hk] at hw
        · simp [hk] at hw
          rw [← hw]
          unfold distinctKeys
          rw [List.pairwise_append]
          refine ⟨hs, List.pairwise_singleton _ _, ?_⟩
          intro a ha b hb
          rw [List.mem_singleton] at hb
          rw [hb, hfr l rfl]
          have := List.find?_eq_none.mp hh a ha
          simpa using this

/-- Witness for C8: the store written when `apache-2.0` is fetched into
a store holding only the MIT entry has pairwise-distinct keys. -/
theorem keyUniquenessWitness :
    distinctKeys ([mitLicense].filter (fun l => l.key != "apache-2.0") ++ [apacheLicense]) :=
  (keyUniqueness [mitLicense] "apache-2.0" false (some apacheLicense)
      (by simp [distinctKeys])
      (fun l h => by cases h; rfl)).1
    ([mitLicense].filter (fun l => l.key != "apache-2.0") ++ [apacheLicense]) rfl

/-- Claim C10: with the query normalized as in `run`
(`argv[0]?.trim() || ""`), an empty query makes both `makeItems`
variants return one item per license in input order, and a non-empty
query returns exactly the items of those licenses whose name or key
contains the query case-insensitively, in input order. -/
theorem filterSemantics (argv0 : Option String) (ls : List License) :
    (ListLicenses.queryOf argv0 = "" →
      ListLicenses.makeItems ls (ListLicenses.queryOf argv0) = ls.map ListLicenses.itemFor
      ∧ CopyList.makeItems ls (ListLicenses.queryOf argv0) = ls.map CopyList.itemFor)
    ∧ (ListLicenses.queryOf argv0 ≠ "" →
      ListLicenses.makeItems ls (ListLicenses.queryOf argv0)
        = (ls.filter (fun l => ciContains l.name (ListLicenses.queryOf argv0)
            || ciContains l.key (ListLicenses.queryOf argv0))).map ListLicenses.itemFor
      ∧ CopyList.makeItems ls (ListLicenses.queryOf argv0)
        = (ls.filter (fun l => ciContains l.name (ListLicenses.queryOf argv0)
            || ciContains l.key (ListLicenses.queryOf argv0))).map CopyList.itemFor) := by
  constructor
  · intro h
    rw [h]
    have hl : lowerS "" = "" := rfl
    constructor
    · simp [ListLicenses.makeItems, hl, List.filter_true]
    · simp [CopyList.makeItems, List.filter_true]
  · intro h
    have hq : ¬(lowerS (ListLicenses.queryOf argv0) = "") := fun hh =>
      h ((lowerS_eq_empty (ListLicenses.queryOf argv0)).mp hh)
    constructor
    · simp [ListLicenses.makeItems, ciContains, hq]
    · simp [CopyList.makeItems, ciContains, h]

/-- Witness for C10 at the raw query `" MIT "` over a two-license
list. -/
theorem filterSemanticsWitness :
    ListLicenses.queryOf (some " MIT ") ≠ ""
    ∧ ListLicenses.makeItems [mitLicense, apacheLicense] (ListLicenses.queryOf (some " MIT "))
        = ([mitLicense, apacheLicense].filter (fun l =>
            ciContains l.name (ListLicenses.queryOf (some " MIT "))
            || ciContains l.key (ListLicenses.queryOf (some " MIT ")))).map
              ListLicenses.itemFor :=
  ⟨by decide,
   ((filterSemantics (some " MIT ") [mitLicense, apacheLicense]).2 (by decide)).1⟩
